import Mathlib

/-!
Verification of the market-dashboard batch-quote fan-out endpoint
(`src/app/api/batch/route.ts`) and the history endpoint's input
validation (`src/app/api/history/route.ts`), as a shallow embedding.

JavaScript values that can be `undefined`/`null` are modelled as
`Option`; JavaScript truthiness on strings (the empty string is falsy)
is modelled explicitly by `jsOr`.  Numeric payload fields are never
computed on, only copied, so the embedding is polymorphic in the
number type `Num`.
-/

/-- models JavaScript `a || b` for a possibly-absent string `a`:
`undefined`, `null` and the empty string are falsy and fall through
to `b`. -/
def jsOr (a : Option String) (b : String) : String :=
  match a with
  | some s => if s = "" then b else s
  | none => b

/-- a raw quote payload from the upstream provider (`yahoo.quote`),
typed as `any` in the source: every field may be absent. -/
structure RawQuote (Num : Type) where
  shortName : Option String
  longName : Option String
  regularMarketPrice : Option Num
  regularMarketChangePercent : Option Num
  currency : Option String
  deriving DecidableEq, Repr

/-- a JavaScript error value as observed by the source: it may or may
not carry a `message` field, and it always has a string form
(`String(r.reason)`), modelled by `stringRep`. -/
structure JsError where
  message : Option String
  stringRep : String
  deriving DecidableEq, Repr

/-- the settled outcome of one upstream lookup, as reported by
`Promise.allSettled`: fulfilled with a payload or rejected with a
reason. -/
inductive Settled (Num : Type) where
  | fulfilled (q : RawQuote Num)
  | rejected (reason : JsError)
  deriving DecidableEq, Repr

/-- true exactly on rejected outcomes. -/
def Settled.isRejected {Num : Type} : Settled Num → Bool
  | .fulfilled _ => false
  | .rejected _ => true

/-- one element of the batch response: the source builds either
`{ok: true, ticker, name, price, changePercent, currency}` or
`{ok: false, ticker, error}`. -/
inductive QuoteResult (Num : Type) where
  | success (ticker : String) (name : String) (price : Option Num)
      (changePercent : Option Num) (currency : Option String)
  | failure (ticker : String) (error : String)
  deriving DecidableEq, Repr

/-- the `ticker` field, present in both variants. -/
def QuoteResult.ticker {Num : Type} : QuoteResult Num → String
  | .success t _ _ _ _ => t
  | .failure t _ => t

/-- the `ok` tag: `true` on the success variant, `false` on the
failure variant. -/
def QuoteResult.ok {Num : Type} : QuoteResult Num → Bool
  | .success _ _ _ _ _ => true
  | .failure _ _ => false

/-- JavaScript `String.prototype.split` with a one-character separator,
over the character list of the string: `"".split(",")` is `[""]`, and
every separator occurrence opens a new piece. -/
def splitOnChar (sep : Char) : List Char → List (List Char)
  | [] => [[]]
  | c :: rest =>
    if c = sep then [] :: splitOnChar sep rest
    else
      match splitOnChar sep rest with
      | [] => [[c]]
      | g :: gs => (c :: g) :: gs

/-- JavaScript `String.prototype.trim`: strip leading and trailing
whitespace. -/
def trimChars (cs : List Char) : List Char :=
  ((cs.dropWhile Char.isWhitespace).reverse.dropWhile Char.isWhitespace).reverse

/-- the ticker parsing of the batch route:
`tickersParam.split(",").map(t => t.trim().toUpperCase()).filter(Boolean)`
(`filter(Boolean)` drops exactly the empty strings). -/
def parseTickers (s : String) : List String :=
  (((splitOnChar ',' s.data).map
      (fun cs => (trimChars cs).map Char.toUpper)).filter
    (fun cs => cs ≠ [])).map String.mk

/-- the display name computed inside the per-ticker async closure:
`q.shortName || q.longName || ticker`. -/
def displayName {Num : Type} (q : RawQuote Num) (ticker : String) : String :=
  jsOr q.shortName (jsOr q.longName ticker)

/-- the error message extraction of the rejected branch:
`r.reason?.message || String(r.reason)`. -/
def errorText (e : JsError) : String :=
  jsOr e.message e.stringRep

/-- maps the settled outcome of the lookup for `ticker` to one response
element, combining the fulfilled value built in the async closure
(`{ticker, name, price, changePercent, currency}` spread under
`ok: true`) with the rejected branch (`{ok: false, ticker, error}`). -/
def settleOne {Num : Type} (ticker : String) : Settled Num → QuoteResult Num
  | .fulfilled q =>
      .success ticker (displayName q ticker) q.regularMarketPrice
        q.regularMarketChangePercent q.currency
  | .rejected e => .failure ticker (errorText e)

/-- position-indexed mapping of the settled outcomes onto the parsed
tickers, starting at index `i`: the source's
`results.map((r, i) => ...)` where `results[i]` is the settled outcome
of the lookup issued for `tickers[i]`.  `env k` is the settled outcome
of the `k`-th issued lookup. -/
def batchDataAux {Num : Type} (env : Nat → Settled Num) :
    Nat → List String → List (QuoteResult Num)
  | _, [] => []
  | i, t :: ts => settleOne t (env i) :: batchDataAux env (i + 1) ts

/-- the `data` array of a successful batch response: one `QuoteResult`
per parsed ticker, in input order, each taken from its own lookup's
settled outcome. -/
def batchData {Num : Type} (ts : List String) (env : Nat → Settled Num) :
    List (QuoteResult Num) :=
  batchDataAux env 0 ts

/-- the body of a batch response: either `{error: msg}` or
`{data: rows}`. -/
inductive BatchBody (Num : Type) where
  | error (msg : String)
  | data (rows : List (QuoteResult Num))
  deriving DecidableEq, Repr

/-- the batch route's `GET` handler: parse the `tickers` query
parameter (`searchParams.get("tickers") || ""`), answer
`400 {error: "Missing tickers"}` when no symbol survives parsing,
otherwise fan out one lookup per symbol, await all settled outcomes
and answer `200 {data}`.  The result is the pair (HTTP status, body). -/
def batchGET {Num : Type} (tickersParam : Option String)
    (env : Nat → Settled Num) : Nat × BatchBody Num :=
  let tickers := parseTickers (jsOr tickersParam "")
  if tickers.length = 0 then
    (400, .error "Missing tickers")
  else
    (200, .data (batchData tickers env))

/-- arrival-order model of the `Promise.allSettled` fan-in: the `N`
result slots start unfilled, and as each lookup settles (positions
listed in `order`, the completion order) its outcome is written into
the slot of its input position — never into a slot chosen by arrival
rank. -/
def runSchedule {Num : Type} (ts : List String) (env : Nat → Settled Num)
    (order : List Nat) : List (Option (QuoteResult Num)) :=
  order.foldl
    (fun slots j => slots.set j (some (settleOne (ts.getD j "") (env j))))
    (List.replicate ts.length none)

/-- timing model of the `Promise.allSettled` join: all `N` lookups
start together at time `0`, lookup `k` settles at time `settleTime k`,
and the joined promise resolves at the maximum of the settle times —
no earlier (it waits for every lookup) and no later (no lookup blocks
on another). -/
def allSettledTime (N : Nat) (settleTime : Nat → Nat) : Nat :=
  ((List.range N).map settleTime).foldr max 0

/-- result of a JavaScript bracket lookup on the plain object literal
`{"1m": 31, "3m": 93, "6m": 186, "1y": 366}`: an own key yields its
number of days, a string-keyed property inherited from
`Object.prototype` yields a truthy function or object, and any other
key yields `undefined`. -/
inductive RangeLookup where
  | days (n : Nat)
  | inherited
  | missing
  deriving DecidableEq, Repr

/-- the bracket lookup `RANGE_TO_DAYS[range]` of the history route,
prototype chain included: besides the four own keys, the string-keyed
properties of `Object.prototype` (`"constructor"`, `"toString"`,
`"__proto__"`, ...) resolve to inherited truthy values, so the
source's falsy check `!RANGE_TO_DAYS[range]` rejects exactly the keys
that resolve to `undefined` — every own value is a nonzero number and
every inherited value is a function or object. -/
def RANGE_TO_DAYS : String → RangeLookup
  | "1m" => .days 31
  | "3m" => .days 93
  | "6m" => .days 186
  | "1y" => .days 366
  | "constructor" => .inherited
  | "hasOwnProperty" => .inherited
  | "isPrototypeOf" => .inherited
  | "propertyIsEnumerable" => .inherited
  | "toLocaleString" => .inherited
  | "toString" => .inherited
  | "valueOf" => .inherited
  | "__defineGetter__" => .inherited
  | "__defineSetter__" => .inherited
  | "__lookupGetter__" => .inherited
  | "__lookupSetter__" => .inherited
  | "__proto__" => .inherited
  | _ => .missing

/-- JavaScript `toUpperCase` restricted to the ASCII tickers this
service handles. -/
def jsUpper (s : String) : String :=
  String.mk (s.data.map Char.toUpper)

/-- JavaScript `toLowerCase` restricted to the ASCII range keys this
service handles. -/
def jsLower (s : String) : String :=
  String.mk (s.data.map Char.toLower)

/-- the body of a history response: `{error}`, `{error, details}` or
`{ticker, range, data}`. -/
inductive HistoryBody (Num : Type) where
  | error (msg : String)
  | errorDetails (msg : String) (details : Option String)
  | ok (ticker : String) (range : String) (rows : List (String × Num))
  deriving DecidableEq, Repr

/-- the history route's `GET` handler: uppercase the `ticker`
parameter, lowercase the `range` parameter defaulting it to `"1y"`,
reject a missing ticker with `400 {error: "Missing ticker"}`, reject a
range whose bracket lookup `RANGE_TO_DAYS[range]` is falsy — that is,
resolves to `undefined` — with `400 {error: "Invalid range"}`, and
otherwise (own key or inherited truthy property) call upstream.  The upstream call is modelled as an
already-settled `Except`: its row post-processing is passed through
unchanged, since the claims verified here concern only the parameter
validation, which the source performs before the upstream call. -/
def historyGET {Num : Type} (tickerParam rangeParam : Option String)
    (upstream : Except JsError (List (String × Num))) : Nat × HistoryBody Num :=
  let ticker := jsUpper (jsOr tickerParam "")
  let range := jsLower (jsOr rangeParam "1y")
  if ticker = "" then
    (400, .error "Missing ticker")
  else
    match RANGE_TO_DAYS range with
    | .missing => (400, .error "Invalid range")
    | _ =>
      match upstream with
      | .ok rows => (200, .ok ticker range rows)
      | .error e => (500, .errorDetails "Failed to fetch history" e.message)

/-- display name as the spec's fallback sentence literally reads: the
short display name if the field is present, otherwise the long display
name if present, otherwise the ticker — written for comparison with
`displayName`, which follows the source's truthy `||` chain. -/
def displayNameClaim {Num : Type} (q : RawQuote Num) (ticker : String) : String :=
  match q.shortName with
  | some s => s
  | none =>
    match q.longName with
    | some l => l
    | none => ticker

/-- display name as amended: the short display name if present and
non-empty, otherwise the long display name if present and non-empty,
otherwise the ticker. -/
def displayNameAmended {Num : Type} (q : RawQuote Num) (ticker : String) : String :=
  ((q.shortName.filter fun s => s != "").orElse
    fun _ => q.longName.filter fun s => s != "").getD ticker

/-- error message as the spec's sentence literally reads: the error's
`message` field when it exists, otherwise its string form — written
for comparison with `errorText`, which follows the source's truthy
`||`. -/
def errorTextClaim (e : JsError) : String :=
  e.message.getD e.stringRep

/-- error message as amended: the `message` field when present and
non-empty, otherwise the error's string form. -/
def errorTextAmended (e : JsError) : String :=
  (e.message.filter fun s => s != "").getD e.stringRep

/-- a concrete fulfilled payload used to instantiate theorems. -/
def sampleQuote : RawQuote Int :=
  ⟨some "Apple Inc.", some "Apple Inc. (long)", some 190, some 1, some "USD"⟩

/-- a concrete rejection reason used to instantiate theorems. -/
def sampleErr : JsError :=
  ⟨some "Quote not found", "Error: Quote not found"⟩

/-- a concrete environment whose lookup 0 fulfills and whose other
lookups reject. -/
def envMixed : Nat → Settled Int :=
  fun k => if k = 0 then .fulfilled sampleQuote else .rejected sampleErr

/-- a concrete environment in which every lookup rejects. -/
def envFail : Nat → Settled Int :=
  fun _ => .rejected sampleErr

example : parseTickers "  aapl , MSFT,, msft " = ["AAPL", "MSFT", "MSFT"] := by
  decide

example : parseTickers "" = [] := by decide

example :
    @settleOne Int "AAPL"
      (.fulfilled ⟨some "", some "Apple Inc.", some 3, none, some "USD"⟩) =
    .success "AAPL" "Apple Inc." (some 3) none (some "USD") := by decide

/-- the `ticker` field of a mapped outcome is always the input symbol,
in both variants. -/
theorem ticker_settleOne {Num : Type} (t : String) (s : Settled Num) :
    (settleOne t s).ticker = t := by
  cases s <;> rfl

/-- the fan-in output has one element per input ticker. -/
theorem batchDataAux_length {Num : Type} (env : Nat → Settled Num) (i : Nat)
    (ts : List String) : (batchDataAux env i ts).length = ts.length := by
  induction ts generalizing i with
  | nil => rfl
  | cons t ts ih => simp [batchDataAux, ih]

/-- each slot of the fan-in output is its own ticker's outcome under
its own lookup. -/
theorem batchDataAux_getElem? {Num : Type} (env : Nat → Settled Num) (i j : Nat)
    (ts : List String) :
    (batchDataAux env i ts)[j]? = ts[j]?.map fun t => settleOne t (env (i + j)) := by
  induction ts generalizing i j with
  | nil => simp [batchDataAux]
  | cons t ts ih =>
    cases j with
    | zero => simp [batchDataAux]
    | succ j =>
      have harith : i + 1 + j = i + (j + 1) := by omega
      simp [batchDataAux, ih (i + 1) j, harith]

/-- slot `j` of the batch data is the outcome of lookup `j` applied to
ticker `j`. -/
theorem batchData_getElem? {Num : Type} (ts : List String) (env : Nat → Settled Num)
    (j : Nat) :
    (batchData ts env)[j]? = ts[j]?.map fun t => settleOne t (env j) := by
  simpa using batchDataAux_getElem? env 0 j ts

/-- projecting the `ticker` field out of the fan-in output recovers the
input ticker sequence. -/
theorem batchDataAux_map_ticker {Num : Type} (env : Nat → Settled Num) (i : Nat)
    (ts : List String) :
    (batchDataAux env i ts).map QuoteResult.ticker = ts := by
  induction ts generalizing i with
  | nil => rfl
  | cons t ts ih => simp [batchDataAux, ticker_settleOne, ih]

/-- writing value `v i` into slot `i` for each arrival in `order`
fills exactly the slots that arrive, regardless of arrival order,
because every write targets the slot of its input position. -/
theorem foldl_set_getElem? {α : Type} (v : Nat → α) (order : List Nat)
    (slots : List (Option α)) (j : Nat) :
    (order.foldl (fun s i => s.set i (some (v i))) slots)[j]? =
      if j ∈ order ∧ j < slots.length then some (some (v j)) else slots[j]? := by
  induction order generalizing slots with
  | nil => simp
  | cons a order ih =>
    rw [List.foldl_cons, ih]
    simp only [List.length_set, List.getElem?_set, List.mem_cons]
    by_cases hlt : j < slots.length
    · by_cases hja : a = j
      · by_cases hmem : j ∈ order <;> simp [hmem, hlt, hja]
      · have hja' : ¬j = a := fun h => hja h.symm
        by_cases hmem : j ∈ order <;> simp [hmem, hlt, hja, hja']
    · have hnone : slots[j]? = none := List.getElem?_eq_none (Nat.le_of_not_lt hlt)
      by_cases hja : a = j
      · by_cases hmem : j ∈ order <;> simp [hmem, hlt, hja, hnone]
      · have hja' : ¬j = a := fun h => hja h.symm
        by_cases hmem : j ∈ order <;> simp [hmem, hlt, hja, hja', hnone]

/-- a member of a list of naturals is bounded by the running maximum. -/
theorem le_foldr_max (l : List Nat) (x : Nat) (hx : x ∈ l) : x ≤ l.foldr max 0 := by
  induction l with
  | nil => cases hx
  | cons a l ih =>
    rcases List.mem_cons.mp hx with h | h
    · exact h ▸ Nat.le_max_left a (l.foldr max 0)
    · exact Nat.le_trans (ih h) (Nat.le_max_right a (l.foldr max 0))

/-- the running maximum of a list of naturals is bounded by any common
upper bound of its members. -/
theorem foldr_max_le (l : List Nat) (B : Nat) (h : ∀ x ∈ l, x ≤ B) :
    l.foldr max 0 ≤ B := by
  induction l with
  | nil => exact Nat.zero_le B
  | cons a l ih =>
    exact Nat.max_le.mpr ⟨h a (List.mem_cons_self a l),
      ih fun x hx => h x (List.mem_cons_of_mem a hx)⟩

/-- pushing the trailing `map` through `filter` and `map` turns the
parsing pipeline into a single order-preserving fold that keeps every
non-empty normalized piece and drops the empty ones. -/
theorem parse_pipeline_foldr (f : List Char → List Char) (l : List (List Char)) :
    ((l.map f).filter (fun cs => cs ≠ [])).map String.mk =
      l.foldr
        (fun (piece : List Char) (acc : List String) =>
          if f piece = [] then acc else String.mk (f piece) :: acc) [] := by
  induction l with
  | nil => rfl
  | cons a l ih =>
    rw [List.map_cons, List.filter_cons, List.foldr_cons]
    by_cases h : f a = []
    · rw [if_neg (by simp [h]), ih, if_pos h]
    · rw [if_pos (by simp [h]), List.map_cons, ih, if_neg h]

/-- C4: the parser splits the raw string on commas, trims and
uppercases every piece, and drops exactly the pieces that are empty
after normalization, preserving the order and multiplicity of the
rest; on the spec's example input it yields `["AAPL", "MSFT", "MSFT"]`. -/
theorem c4_parser_normalizes (s : String) :
    parseTickers s =
      (splitOnChar ',' s.data).foldr
        (fun (piece : List Char) (acc : List String) =>
          if (trimChars piece).map Char.toUpper = [] then acc
          else String.mk ((trimChars piece).map Char.toUpper) :: acc) [] ∧
    (∀ t ∈ parseTickers s, t ≠ "") ∧
    parseTickers "  aapl , MSFT,, msft " = ["AAPL", "MSFT", "MSFT"] := by
  refine ⟨parse_pipeline_foldr _ _, ?_, by decide⟩
  intro t ht
  rcases List.mem_map.mp ht with ⟨cs, hcs, rfl⟩
  have hne : cs ≠ [] := by simpa using List.of_mem_filter hcs
  intro hmk
  exact hne (by simpa using congrArg String.data hmk)

/-- C5: whenever parsing yields no symbol (missing parameter included),
the batch route answers `400 {error: "Missing tickers"}`, and the
response does not depend on the upstream environment — no lookup's
outcome is consulted. -/
theorem c5_empty_batch_rejected {Num : Type} (p : Option String)
    (env : Nat → Settled Num)
    (hempty : parseTickers (jsOr p "") = []) :
    batchGET p env = (400, .error "Missing tickers") ∧
    ∀ env' : Nat → Settled Num, batchGET p env' = batchGET p env := by
  constructor
  · simp [batchGET, hempty]
  · intro env'
    simp [batchGET, hempty]

/-- C5 witness: the missing-parameter case and an input of only commas
and whitespace are both rejected with `400 {error: "Missing tickers"}`. -/
theorem c5_empty_batch_rejected_witness :
    @batchGET Int none envFail = (400, .error "Missing tickers") ∧
    @batchGET Int (some " ,, ,  ") envMixed =
      (400, .error "Missing tickers") := by
  exact ⟨(c5_empty_batch_rejected none envFail (by decide)).1,
    (c5_empty_batch_rejected (some " ,, ,  ") envMixed (by decide)).1⟩

/-- C1: when parsing yields `N ≥ 1` symbols, the batch route answers
`200` with exactly `N` results; the `ticker` field (present in both
variants) of result `i` is input symbol `i`; and any arrival order of
the lookups that covers all `N` positions reassembles to exactly that
ordered result list — completion order never leaks into output order. -/
theorem c1_output_aligned_with_input {Num : Type} (p : Option String)
    (env : Nat → Settled Num)
    (hne : parseTickers (jsOr p "") ≠ []) :
    batchGET p env = (200, .data (batchData (parseTickers (jsOr p "")) env)) ∧
    (batchData (parseTickers (jsOr p "")) env).length =
      (parseTickers (jsOr p "")).length ∧
    (batchData (parseTickers (jsOr p "")) env).map QuoteResult.ticker =
      parseTickers (jsOr p "") ∧
    ∀ order : List Nat,
      (∀ j, j ∈ order ↔ j < (parseTickers (jsOr p "")).length) →
      runSchedule (parseTickers (jsOr p "")) env order =
        (batchData (parseTickers (jsOr p "")) env).map some := by
  refine ⟨?_, batchDataAux_length env 0 _, batchDataAux_map_ticker env 0 _, ?_⟩
  · simp [batchGET, batchData, hne]
  · intro order hcover
    apply List.ext_getElem?
    intro j
    rw [runSchedule, foldl_set_getElem?]
    simp only [List.length_replicate, List.getElem?_replicate, List.getElem?_map,
      batchData_getElem?]
    by_cases hj : j < (parseTickers (jsOr p "")).length
    · have hmem := (hcover j).mpr hj
      simp [hmem, hj, List.getD_eq_getElem?_getD, List.getElem?_eq_getElem hj]
    · have hmem : j ∉ order := fun h => hj ((hcover j).mp h)
      simp [hmem, hj, List.getElem?_eq_none (Nat.le_of_not_lt hj)]

/-- C1 witness: on `" aapl ,msft"` with a mixed environment (lookup 0
fulfills, lookup 1 rejects) the ticker fields echo the input in order,
and the reversed arrival order `[1, 0]` reassembles the same response. -/
theorem c1_output_aligned_with_input_witness :
    (batchData (parseTickers (jsOr (some " aapl ,msft") "")) envMixed).map
        QuoteResult.ticker =
      parseTickers (jsOr (some " aapl ,msft") "") ∧
    runSchedule (parseTickers (jsOr (some " aapl ,msft") "")) envMixed [1, 0] =
      (batchData (parseTickers (jsOr (some " aapl ,msft") "")) envMixed).map
        some := by
  have h := c1_output_aligned_with_input (some " aapl ,msft") envMixed (by decide)
  refine ⟨h.2.2.1, h.2.2.2 [1, 0] ?_⟩
  have hlen : (parseTickers (jsOr (some " aapl ,msft") "")).length = 2 := by decide
  intro j
  rw [hlen]
  simp only [List.mem_cons, List.not_mem_nil, or_false]
  omega

/-- C2: the fan-out/fan-in is allSettled-shaped: each output slot is a
function of its own lookup's settled outcome only; replacing one
lookup's outcome never changes any other slot (no cancellation or
blocking across lookups); and the join resolves exactly at the last
settle time — no earlier than any lookup's settling, and no later than
any common bound on the settle times. -/
theorem c2_allsettled_fanout {Num : Type} (ts : List String)
    (env : Nat → Settled Num) :
    (∀ i, (batchData ts env)[i]? = ts[i]?.map fun t => settleOne t (env i)) ∧
    (∀ (i : Nat) (s : Settled Num) (j : Nat), j ≠ i →
      (batchData ts (Function.update env i s))[j]? = (batchData ts env)[j]?) ∧
    (∀ settleTime : Nat → Nat, ∀ i, i < ts.length →
      settleTime i ≤ allSettledTime ts.length settleTime) ∧
    (∀ settleTime : Nat → Nat, ∀ B : Nat,
      (∀ i, i < ts.length → settleTime i ≤ B) →
      allSettledTime ts.length settleTime ≤ B) := by
  refine ⟨fun i => batchData_getElem? ts env i, ?_, ?_, ?_⟩
  · intro i s j hji
    simp only [batchData_getElem?, Function.update_noteq hji]
  · intro st i hi
    exact le_foldr_max _ _ (List.mem_map.mpr ⟨i, List.mem_range.mpr hi, rfl⟩)
  · intro st B hB
    refine foldr_max_le _ B ?_
    intro x hx
    rcases List.mem_map.mp hx with ⟨i, hi, rfl⟩
    exact hB i (List.mem_range.mp hi)

/-- C2 witness: on a two-ticker batch with a mixed environment, slot 0
is lookup 0's outcome, changing lookup 1 leaves slot 0 untouched, and
with both lookups settling at time 5 the join resolves exactly at 5. -/
theorem c2_allsettled_fanout_witness :
    (batchData ["AAPL", "MSFT"] envMixed)[0]? =
      (["AAPL", "MSFT"][0]?).map (fun t => settleOne t (envMixed 0)) ∧
    (batchData ["AAPL", "MSFT"]
        (Function.update envMixed 1 (.fulfilled sampleQuote)))[0]? =
      (batchData ["AAPL", "MSFT"] envMixed)[0]? ∧
    5 ≤ allSettledTime 2 (fun _ => 5) ∧
    allSettledTime 2 (fun _ => 5) ≤ 5 := by
  have h := c2_allsettled_fanout ["AAPL", "MSFT"] envMixed
  exact ⟨h.1 0, h.2.1 1 (.fulfilled sampleQuote) 0 (by decide),
    h.2.2.1 (fun _ => 5) 1 (by decide),
    h.2.2.2 (fun _ => 5) 5 (fun _ _ => Nat.le_refl 5)⟩

/-- C3: once parsing yields at least one symbol, the batch operation
cannot fail: the status is 200, the body is the tagged result list with
one entry per symbol, and even when every lookup rejects the response
is the same 200 with every entry tagged `ok = false`. -/
theorem c3_batch_never_fails {Num : Type} (p : Option String)
    (env : Nat → Settled Num)
    (hne : parseTickers (jsOr p "") ≠ []) :
    (batchGET p env).1 = 200 ∧
    (batchGET p env).2 = .data (batchData (parseTickers (jsOr p "")) env) ∧
    (batchData (parseTickers (jsOr p "")) env).length =
      (parseTickers (jsOr p "")).length ∧
    ((∀ k, k < (parseTickers (jsOr p "")).length → (env k).isRejected = true) →
      ∀ r ∈ batchData (parseTickers (jsOr p "")) env, r.ok = false) := by
  refine ⟨?_, ?_, batchDataAux_length env 0 _, ?_⟩
  · simp [batchGET, batchData, hne]
  · simp [batchGET, batchData, hne]
  · intro hfail r hr
    rcases List.mem_iff_getElem?.mp hr with ⟨j, hj⟩
    rw [batchData_getElem?] at hj
    rcases Option.map_eq_some'.mp hj with ⟨t, htj, rfl⟩
    have hjlt : j < (parseTickers (jsOr p "")).length := by
      by_contra hcon
      rw [List.getElem?_eq_none (Nat.le_of_not_lt hcon)] at htj
      cases htj
    have hrej := hfail j hjlt
    cases hs : env j with
    | fulfilled q =>
      rw [hs] at hrej
      exact absurd hrej (by simp [Settled.isRejected])
    | rejected e =>
      rfl

/-- C3 witness: with both lookups of `"aapl,msft"` rejecting, the
status is still 200 and every entry carries `ok = false`. -/
theorem c3_batch_never_fails_witness :
    (batchGET (some "aapl,msft") envFail).1 = 200 ∧
    ∀ r ∈ batchData (parseTickers (jsOr (some "aapl,msft") "")) envFail,
      r.ok = false := by
  have h := c3_batch_never_fails (some "aapl,msft") envFail (by decide)
  exact ⟨h.1, h.2.2.2 (fun k _ => rfl)⟩

/-- C8: a symbol occurring at two positions gets two separate lookups:
each of the two slots holds its own lookup's outcome, and replacing the
outcome of the first occurrence's lookup leaves the other occurrence's
slot unchanged. -/
theorem c8_duplicates_independent {Num : Type} (ts : List String)
    (env : Nat → Settled Num) (i j : Nat) (hi : i < ts.length)
    (hj : j < ts.length) (hij : i ≠ j) (hdup : ts[i]? = ts[j]?) :
    (batchData ts env)[i]? = some (settleOne (ts.getD i "") (env i)) ∧
    (batchData ts env)[j]? = some (settleOne (ts.getD j "") (env j)) ∧
    ∀ s : Settled Num,
      (batchData ts (Function.update env i s))[j]? =
        (batchData ts env)[j]? := by
  refine ⟨?_, ?_, ?_⟩
  · rw [batchData_getElem?, List.getElem?_eq_getElem hi]
    simp [List.getD_eq_getElem?_getD, List.getElem?_eq_getElem hi]
  · rw [batchData_getElem?, List.getElem?_eq_getElem hj]
    simp [List.getD_eq_getElem?_getD, List.getElem?_eq_getElem hj]
  · intro s
    simp only [batchData_getElem?, Function.update_noteq (Ne.symm hij)]

/-- C8 witness: `["MSFT", "MSFT"]` under the mixed environment — the
first occurrence fulfills, the second rejects, both slots are
populated, and rejecting the first occurrence's lookup leaves the
second slot unchanged. -/
theorem c8_duplicates_independent_witness :
    (batchData ["MSFT", "MSFT"] envMixed)[0]? =
      some (settleOne "MSFT" (envMixed 0)) ∧
    (batchData ["MSFT", "MSFT"] envMixed)[1]? =
      some (settleOne "MSFT" (envMixed 1)) ∧
    (batchData ["MSFT", "MSFT"]
        (Function.update envMixed 0 (.rejected sampleErr)))[1]? =
      (batchData ["MSFT", "MSFT"] envMixed)[1]? := by
  have h := c8_duplicates_independent ["MSFT", "MSFT"] envMixed 0 1
    (by decide) (by decide) (by decide) (by decide)
  exact ⟨h.1, h.2.1, h.2.2 (.rejected sampleErr)⟩

/-- C6 counterexample: a payload whose short display name is present
but empty falls through to the long display name in the source (the
`q.shortName || q.longName || ticker` truthiness chain), while the
claim's present-first chain picks the empty short name. -/
theorem c6_display_name_counterexample :
    @displayName Int ⟨some "", some "Apple Inc.", none, none, none⟩
        "AAPL" = "Apple Inc." ∧
    @displayNameClaim Int ⟨some "", some "Apple Inc.", none, none, none⟩
        "AAPL" = "" ∧
    @displayName Int ⟨some "", some "Apple Inc.", none, none, none⟩
        "AAPL" ≠
      @displayNameClaim Int ⟨some "", some "Apple Inc.", none, none, none⟩
        "AAPL" := by
  decide

/-- C6 (amended): a fulfilled lookup maps to the success variant whose
name is the short display name when present and non-empty, otherwise
the long display name when present and non-empty, otherwise the ticker
symbol; price, changePercent and currency are copied from the payload. -/
theorem c6_success_display_name {Num : Type} (q : RawQuote Num) (ticker : String) :
    settleOne ticker (.fulfilled q) =
      .success ticker (displayNameAmended q ticker) q.regularMarketPrice
        q.regularMarketChangePercent q.currency := by
  rcases q with ⟨sn, ln, pr, cp, cu⟩
  cases sn <;> cases ln <;>
    simp [settleOne, displayName, displayNameAmended, jsOr, Option.filter,
      Option.orElse] <;>
    split_ifs <;> simp_all

/-- C7 counterexample: a rejection reason whose `message` field is
present but empty falls through to the error's string form in the
source (`r.reason?.message || String(r.reason)`), while the claim's
field-exists rule picks the empty message. -/
theorem c7_error_message_counterexample :
    errorText ⟨some "", "Error: boom"⟩ = "Error: boom" ∧
    errorTextClaim ⟨some "", "Error: boom"⟩ = "" ∧
    errorText ⟨some "", "Error: boom"⟩ ≠
      errorTextClaim ⟨some "", "Error: boom"⟩ := by
  decide

/-- C7 (amended): a rejected lookup maps to the failure variant tagged
`ok = false`, echoing the input ticker, whose error text is the
reason's `message` field when present and non-empty, otherwise the
reason's string form; the outcome is consulted exactly once per
position (no retry), as the fan-in lemmas record. -/
theorem c7_failure_message {Num : Type} (ticker : String) (e : JsError) :
    @settleOne Num ticker (.rejected e) =
      .failure ticker (errorTextAmended e) ∧
    (@settleOne Num ticker (.rejected e)).ticker = ticker ∧
    (@settleOne Num ticker (.rejected e)).ok = false := by
  refine ⟨?_, rfl, rfl⟩
  rcases e with ⟨msg, srep⟩
  cases msg <;>
    simp [settleOne, errorText, errorTextAmended, jsOr, Option.filter] <;>
    split_ifs <;> simp_all

/-- C9 counterexample: the range `"constructor"` is not one of the four
recognized ranges, yet the bracket lookup resolves it through the
prototype chain to the truthy `Object.prototype.constructor`, so the
falsy guard passes: with ticker `"aapl"` the route does not answer
`400 {error: "Invalid range"}` and it does consult the upstream — the
response differs between an upstream success and an upstream failure. -/
theorem c9_history_range_counterexample :
    RANGE_TO_DAYS "constructor" = .inherited ∧
    ¬("constructor" = "1m" ∨ "constructor" = "3m" ∨ "constructor" = "6m" ∨
      "constructor" = "1y") ∧
    @historyGET Int (some "aapl") (some "constructor") (.ok []) ≠
      (400, .error "Invalid range") ∧
    @historyGET Int (some "aapl") (some "constructor") (.ok []) ≠
      @historyGET Int (some "aapl") (some "constructor")
        (.error ⟨none, "boom"⟩) := by
  decide

/-- C9 (amended): the history route defaults an absent `range` to
`"1y"` and lowercases it; exactly the keys `"1m"`, `"3m"`, `"6m"`,
`"1y"` resolve to a day count; and when the ticker is present and the
lowercased range resolves to `undefined` on the range table — it is
neither an own key nor an `Object.prototype` property name inherited
through the bracket lookup — the route answers
`400 {error: "Invalid range"}` without consulting the upstream. -/
theorem c9_history_range_validation {Num : Type} :
    (∀ (tp : Option String) (up : Except JsError (List (String × Num))),
      historyGET tp none up = historyGET tp (some "1y") up) ∧
    (∀ r : String,
      (∃ n, RANGE_TO_DAYS r = .days n) ↔
        r = "1m" ∨ r = "3m" ∨ r = "6m" ∨ r = "1y") ∧
    (∀ (tp rp : Option String) (up up' : Except JsError (List (String × Num))),
      jsUpper (jsOr tp "") ≠ "" →
      RANGE_TO_DAYS (jsLower (jsOr rp "1y")) = .missing →
      historyGET tp rp up = (400, .error "Invalid range") ∧
      historyGET tp rp up = historyGET tp rp up') := by
  refine ⟨fun tp up => rfl, ?_, ?_⟩
  · intro r
    unfold RANGE_TO_DAYS
    split <;> simp_all
  · intro tp rp up up' hticker hrange
    constructor <;> simp [historyGET, hticker, hrange]

/-- C9 witness: an absent range behaves as `"1y"`, and the unrecognized
range `"5Y"` (lowercased to `"5y"`, resolving to `undefined`) with
ticker `"aapl"` yields `400 {error: "Invalid range"}` whatever the
upstream would return. -/
theorem c9_history_range_validation_witness :
    @historyGET Int (some "aapl") none (.ok []) =
      @historyGET Int (some "aapl") (some "1y") (.ok []) ∧
    @historyGET Int (some "aapl") (some "5Y") (.ok [("2025-01-02", 3)]) =
      (400, .error "Invalid range") ∧
    @historyGET Int (some "aapl") (some "5Y") (.ok [("2025-01-02", 3)]) =
      @historyGET Int (some "aapl") (some "5Y")
        (.error ⟨none, "boom"⟩) := by
  have h := @c9_history_range_validation Int
  have h3 := h.2.2 (some "aapl") (some "5Y") (.ok [("2025-01-02", 3)])
    (.error ⟨none, "boom"⟩) (by decide) (by decide)
  exact ⟨h.1 (some "aapl") (.ok []), h3.1, h3.2⟩

/-- C10: every fulfilled lookup maps to an entry tagged `ok = true`
whose price, changePercent and currency are the payload's fields copied
through unvalidated; in particular a payload with every field absent
still yields a success entry, with the ticker as name and all three
fields absent. -/
theorem c10_fulfilled_always_ok {Num : Type} (ticker : String) (q : RawQuote Num) :
    (settleOne ticker (.fulfilled q)).ok = true ∧
    settleOne ticker (.fulfilled q) =
      .success ticker (displayName q ticker) q.regularMarketPrice
        q.regularMarketChangePercent q.currency ∧
    @settleOne Num ticker (.fulfilled ⟨none, none, none, none, none⟩) =
      .success ticker ticker none none none := by
  exact ⟨rfl, rfl, rfl⟩

/-- C4 witness: on the spec's example input the parser yields
`["AAPL", "MSFT", "MSFT"]`, and the member `"AAPL"` is non-empty. -/
theorem c4_parser_normalizes_witness :
    ("AAPL" : String) ≠ "" ∧
    parseTickers "  aapl , MSFT,, msft " = ["AAPL", "MSFT", "MSFT"] := by
  have h := c4_parser_normalizes "  aapl , MSFT,, msft "
  exact ⟨h.2.1 "AAPL" (by decide), h.2.2⟩
